import Mathlib

/-!
Verification development for the YTDL bot orchestration core.

Shallow embedding of the orchestration functions from the repository
sources (uploader.py, downloader.py, queue_processor.py, config.py,
handlers.py), together with theorems settling the specification claims
about them.  External effects (the extractor, the transcoder, the
transfer endpoint, the filesystem) are modelled as explicit oracles and
explicit disk-state passing; machine behaviour that matters to the
claims (substring classification of error messages, tuple arities,
integer division) is embedded exactly as the source computes it.
-/

namespace YTDL

/-! ## String helpers

Python substring tests (`pattern in text`) and `str.lower()` used by the
source are embedded over character lists. -/

/-- Embeds Python `s.lower()` (ASCII patterns only appear in the source),
working over the character list of the string. -/
def lowerChars (s : String) : List Char := s.toList.map Char.toLower

/-- Occurrence check of `needle` at any position of `hay`; the workhorse
behind the Python membership test `needle in hay`. -/
def infixCheck (needle : List Char) : List Char → Bool
  | [] => needle.isEmpty
  | c :: t => needle.isPrefixOf (c :: t) || infixCheck needle t

/-- Embeds the Python membership test `needle in hay` on strings. -/
def containsSubstr (hay needle : String) : Bool :=
  infixCheck needle.toList hay.toList

/-! ## downloader.py : geo-restriction classification -/

/-- The fixed table of access-restriction signatures, from
`GEO_RESTRICTION_ERRORS` in downloader.py. -/
def GEO_RESTRICTION_ERRORS : List String :=
  [ "Video unavailable",
    "is not available in your country",
    "not made this video available in your country",
    "available in your country",
    "geo",
    "blocked",
    "not available",
    "Sign in to confirm your age",
    "This video is not available",
    "Private video",
    "removed by the uploader",
    "uploader has not made this video available",
    "country" ]

/-- Embeds `is_geo_restricted_error` from downloader.py: the error text is
lowercased and matched against each lowercased pattern by substring. -/
def is_geo_restricted_error (errorMsg : String) : Bool :=
  GEO_RESTRICTION_ERRORS.any (fun p => infixCheck (lowerChars p) (lowerChars errorMsg))

/-! ## uploader.py : split_video -/

/-- A duration parsed from the `Duration: HH:MM:SS.ss` line of the ffmpeg
probe output, as decomposed by split_video in uploader.py. -/
structure FfprobeDuration where
  hours : ℕ
  minutes : ℕ
  seconds : ℚ
deriving DecidableEq

/-- `total_seconds = int(parts[0]) * 3600 + int(parts[1]) * 60 + float(parts[2])`
from uploader.py. -/
def totalSeconds (d : FfprobeDuration) : ℚ :=
  d.hours * 3600 + d.minutes * 60 + d.seconds

/-- One element of the list returned by split_video: either the original
input file, or the ffmpeg output file for part index `i` (named
part `i+1` in the source naming pattern). -/
inductive SplitPart where
  | original
  | part (i : ℕ)
deriving DecidableEq

/-- `num_parts = (file_size // max_size_bytes) + 1` from uploader.py. -/
def numParts (fileSize maxSize : ℕ) : ℕ := fileSize / maxSize + 1

/-- `segment_duration = total_seconds / num_parts` from uploader.py
(true division in Python, embedded as exact rational division). -/
def segmentDuration (fileSize maxSize : ℕ) (d : FfprobeDuration) : ℚ :=
  totalSeconds d / (numParts fileSize maxSize : ℚ)

/-- Embeds `split_video` from uploader.py.  `fileSize` is
`os.path.getsize(file_path)`, `maxSize` the active size ceiling,
`duration` the parsed probe output (`none` when no `Duration:` line was
found), and `partOk i` tells whether the ffmpeg invocation for part `i`
exited 0 and produced its output file.  Mirrors the source: undersized
files are returned unchanged; with no duration the original is returned;
otherwise one ffmpeg run per part index collects the parts that
succeeded, and an empty collection degrades to the original file. -/
def split_video (fileSize maxSize : ℕ) (duration : Option FfprobeDuration)
    (partOk : ℕ → Bool) : List SplitPart :=
  if fileSize ≤ maxSize then [SplitPart.original]
  else
    match duration with
    | none => [SplitPart.original]
    | some _ =>
      let outs := (List.range (numParts fileSize maxSize)).filterMap
        (fun i => if partOk i then some (SplitPart.part i) else none)
      if outs.isEmpty then [SplitPart.original] else outs

/-- The part count asserted by the specification text: written from the
words of the spec (`floor(fileSize / (ceiling * 0.95)) + 1`), for
comparison against the count the source computes. -/
def specClaimedNumParts (fileSize maxSize : ℕ) : ℤ :=
  ⌊(fileSize : ℚ) / ((maxSize : ℚ) * (95 / 100))⌋ + 1

/-- The segment length asserted by the specification text: written from
the words of the spec (`max(1, floor(duration / numParts))`), for
comparison against the length the source computes. -/
def specClaimedSegmentSeconds (fileSize maxSize : ℕ) (d : FfprobeDuration) : ℤ :=
  max 1 ⌊totalSeconds d / (numParts fileSize maxSize : ℚ)⌋

/-! ## downloader.py : download_content (proxy failover) -/

/-- Outcome of one external-extractor invocation over a given route:
either a download result or a raised error message.  The extractor is
the external capability; the embedding abstracts it as an oracle. -/
inductive AttemptResult (α : Type) where
  | ok (v : α)
  | err (msg : String)
deriving DecidableEq

/-- The distinct termination points of `download_content` in
downloader.py: success inside the loop, the immediate re-raise of a
non-restriction failure, the configure-a-proxy hint, the (unreachable)
generic single-route failure, and the all-proxies-failed error. -/
inductive DlResult (α : Type) where
  | ok (v : α)
  | raisedNonGeo (msg : String)
  | geoHint
  | singleRouteFailed (msg : String)
  | allProxiesFailed (routeCount : ℕ) (lastMsg : String)
deriving DecidableEq

/-- The route loop of `download_content`: `full` is the original proxy
list (consulted by the post-loop raise in the source), `routes` the
remaining routes, `last` the message of `last_error`.  A restriction
classified failure advances to the next route; any other failure is
re-raised at once.  On exhaustion the source distinguishes the
single-unconfigured-route case (hint or generic failure by
classification of the last error) from the all-proxies-failed case. -/
def dlGo {α : Type} (attempt : Option String → AttemptResult α)
    (full : List (Option String)) : List (Option String) → String → DlResult α
  | [], last =>
    if full.length = 1 ∧ full.head? = some none then
      if is_geo_restricted_error last then DlResult.geoHint
      else DlResult.singleRouteFailed last
    else DlResult.allProxiesFailed full.length last
  | p :: rest, _last =>
    match attempt p with
    | AttemptResult.ok v => DlResult.ok v
    | AttemptResult.err msg =>
      if is_geo_restricted_error msg then dlGo attempt full rest msg
      else DlResult.raisedNonGeo msg

/-- Embeds `download_content` from downloader.py over a proxy list
(`none` is the no-proxy marker produced by `get_proxy_list` when no
route is configured) and an extractor oracle.  `"None"` mirrors the
Python rendering of the initial `last_error = None`, which is never
consulted because the proxy list is never empty in the source. -/
def download_content {α : Type} (proxyList : List (Option String))
    (attempt : Option String → AttemptResult α) : DlResult α :=
  dlGo attempt proxyList proxyList "None"

/-! ## queue_processor.py : tg_retry (flood-control retry policy) -/

/-- The exception classes distinguished by `tg_retry` in
queue_processor.py: `RetryAfter` with its wait duration, a
`TelegramError` with its message, and any other exception. -/
inductive TgErr where
  | retryAfter (wait : ℕ)
  | telegram (msg : String)
  | other (msg : String)
deriving DecidableEq

/-- Terminal failure of a `tg_retry` wrapped call: either the
max-retries-exceeded error raised after the loop, or a re-raised
underlying exception. -/
inductive TgFinal where
  | maxRetriesExceeded
  | raised (e : TgErr)
deriving DecidableEq

/-- Observable behaviour of one `tg_retry` call: its result, the
sequence of sleep durations performed (in seconds, in order), and the
number of invocations of the wrapped callable. -/
structure TgRun (α : Type) where
  result : Except TgFinal α
  sleeps : List ℕ
  attempts : ℕ

/-- `"Flood control" in str(e)` from queue_processor.py (case
sensitive, no lowering in the source). -/
def floodTextMatch (msg : String) : Bool := containsSubstr msg "Flood control"

/-- The attempt loop of `tg_retry`: `attempt` is the index of the
current attempt, `remaining` how many attempts of the ceiling are left.
`f` gives the outcome of the wrapped call at each attempt index.
Mirrors the source: `RetryAfter` sleeps its carried duration and
retries; a `TelegramError` whose text contains `Flood control` sleeps 5
and retries, any other `TelegramError` is re-raised at once; any other
exception is re-raised when this is the final attempt and otherwise
sleeps 2 and retries; a loop that completes raises the
max-retries-exceeded error. -/
def tgRetryAux {α : Type} (f : ℕ → Except TgErr α) : ℕ → ℕ → TgRun α
  | _, 0 => ⟨Except.error TgFinal.maxRetriesExceeded, [], 0⟩
  | attempt, n + 1 =>
    match f attempt with
    | Except.ok v => ⟨Except.ok v, [], 1⟩
    | Except.error (TgErr.retryAfter w) =>
      let r := tgRetryAux f (attempt + 1) n
      ⟨r.result, w :: r.sleeps, r.attempts + 1⟩
    | Except.error (TgErr.telegram msg) =>
      if floodTextMatch msg then
        let r := tgRetryAux f (attempt + 1) n
        ⟨r.result, 5 :: r.sleeps, r.attempts + 1⟩
      else ⟨Except.error (TgFinal.raised (TgErr.telegram msg)), [], 1⟩
    | Except.error (TgErr.other msg) =>
      if n = 0 then ⟨Except.error (TgFinal.raised (TgErr.other msg)), [], 1⟩
      else
        let r := tgRetryAux f (attempt + 1) n
        ⟨r.result, 2 :: r.sleeps, r.attempts + 1⟩

/-- `max_retries = 10` from queue_processor.py. -/
def MAX_RETRIES : ℕ := 10

/-- Embeds `tg_retry` from queue_processor.py. -/
def tg_retry {α : Type} (f : ℕ → Except TgErr α) : TgRun α :=
  tgRetryAux f 0 MAX_RETRIES

/-! ## queue_processor.py : update_status_msg (progress reporter) -/

/-- The mutable state captured by the `update_status_msg` closure in
`process_queue`, together with the chat display it drives.
`statusMsg` is the `text` attribute of the held message object: it is
set when the message is created (from the `send_message` return) and
never changes afterwards, because the source discards the return of
`edit_text` and never reassigns `status_msg` on the edit path.
`displayedText` is what the chat actually shows after the last
successful send or edit — an observable of the transfer endpoint, not
of the closure.  `lastEditTime` is `last_edit_time`. -/
structure StatusState where
  statusMsg : Option String
  displayedText : Option String
  lastEditTime : ℚ
deriving DecidableEq

/-- Embeds `update_status_msg` from `process_queue` in
queue_processor.py.  `now` is the wall-clock reading `time.time()`,
`sendSucceeds` whether the wrapped edit or send call completes (its
failure is swallowed by the handler in the source, leaving the state
unchanged because the assignment to `last_edit_time` follows the
await).  The text comparison on the edit path reads
`status_msg.text`, the creation-time text of the held object; a
successful edit changes the chat display but not `status_msg`.
Returns the new state and whether an outbound send or edit happened. -/
def update_status_msg (st : StatusState) (text : String) (force : Bool)
    (now : ℚ) (sendSucceeds : Bool) : StatusState × Bool :=
  if force = false ∧ now - st.lastEditTime < 20 then (st, false)
  else
    match st.statusMsg with
    | some createdText =>
      if createdText ≠ text then
        if sendSucceeds then
          ({ st with displayedText := some text, lastEditTime := now }, true)
        else (st, false)
      else (st, false)
    | none =>
      if sendSucceeds then
        ({ statusMsg := some text, displayedText := some text, lastEditTime := now }, true)
      else (st, false)

/-! ## queue_processor.py / uploader.py : handle_upload disk effects

`handle_upload` is embedded as a transformer of the local disk state (a
finite set of file names).  Uploads themselves touch the disk only
through the streaming uploaders, which delete the thumbnail after a
successful transfer (uploader.py); all other disk mutations are the
explicit removals in the source.  An exception escaping the `try` body
reaches the outer handler, which reports and swallows it without any
file removal (the `finally` block only runs `gc.collect()`). -/

/-- Result of one `handle_upload` call on the disk model: the final disk
contents and whether an exception escaped the try body into the outer
handler (skipping the cleanup section). -/
structure HandleUploadResult where
  disk : Finset String
  escaped : Bool
deriving DecidableEq

/-- Disk effect of `upload_audio_streaming` / `upload_video_streaming`
from uploader.py: after a successful post the thumbnail file is
removed; a raised API error leaves the disk unchanged. -/
def streamingUploadDisk (thumbPath : Option String) (succeeds : Bool)
    (disk : Finset String) : Finset String :=
  if succeeds then
    match thumbPath with
    | some t => disk.erase t
    | none => disk
  else disk

/-- The audio branch of `handle_upload` in queue_processor.py: a
streaming upload on a locally hosted endpoint (which removes the
thumbnail itself on success), or a `send_audio` through `tg_retry`
otherwise; then removal of the original file.  A raised upload error
escapes to the outer handler with no removal performed. -/
def handleUploadAudioBranch (filePath : String) (thumbPath : Option String)
    (isLocalApi uploadSucceeds : Bool) (disk : Finset String) : HandleUploadResult :=
  if isLocalApi then
    if uploadSucceeds then
      { disk := (streamingUploadDisk thumbPath true disk).erase filePath, escaped := false }
    else
      { disk := streamingUploadDisk thumbPath false disk, escaped := true }
  else
    if uploadSucceeds then { disk := disk.erase filePath, escaped := false }
    else { disk := disk, escaped := true }

/-- The per-part upload loop of the video branch of `handle_upload`.
`uploadOk i` is whether the transfer of part `i` completes (through
`tg_retry` or the streaming uploader), `reportOk i` whether the
failure-report `send_message` for part `i` completes.  A failed part
transfer is caught and reported and the loop continues; only a failure
of the report itself escapes.  On the locally hosted endpoint a
successful streaming part upload removes the thumbnail.  Returns the
disk after the loop and whether an exception escaped. -/
def uploadPartsLoop (isLocalApi : Bool) (thumbPath : Option String)
    (uploadOk reportOk : ℕ → Bool) : ℕ → List String → Finset String →
    Finset String × Bool
  | _, [], disk => (disk, false)
  | i, _f :: rest, disk =>
    if uploadOk i then
      let disk1 := if isLocalApi then streamingUploadDisk thumbPath true disk else disk
      uploadPartsLoop isLocalApi thumbPath uploadOk reportOk (i + 1) rest disk1
    else if reportOk i then
      uploadPartsLoop isLocalApi thumbPath uploadOk reportOk (i + 1) rest disk
    else (disk, true)

/-- The cleanup section at the end of the video branch of
`handle_upload`: remove the thumbnail if present, remove the original
file, then remove every split part other than the original. -/
def videoCleanup (filePath : String) (thumbPath : Option String)
    (files : List String) (disk : Finset String) : Finset String :=
  let d1 := match thumbPath with
    | some t => disk.erase t
    | none => disk
  let d2 := d1.erase filePath
  files.foldl (fun d f => if f = filePath then d else d.erase f) d2

/-- The video branch of `handle_upload` in queue_processor.py.
`splitResult` is the outcome of the `split_video` executor call (`none`
when it raised, escaping to the outer handler; otherwise the list of
files to upload).  The cleanup section runs only when the upload loop
finishes without an escaping exception. -/
def handleUploadVideoBranch (filePath : String) (thumbPath : Option String)
    (isLocalApi : Bool) (splitResult : Option (List String))
    (uploadOk reportOk : ℕ → Bool) (disk : Finset String) : HandleUploadResult :=
  match splitResult with
  | none => { disk := disk, escaped := true }
  | some files =>
    let r := uploadPartsLoop isLocalApi thumbPath uploadOk reportOk 0 files disk
    if r.2 then { disk := r.1, escaped := true }
    else { disk := videoCleanup filePath thumbPath files r.1, escaped := false }

/-! ## queue_processor.py : partial-file sweep after a failed download -/

/-- `task_id = f"{chat_id}_{message_id}_{int(time.time())}"` from
`process_queue` in queue_processor.py. -/
def taskIdFormat (chatId : ℤ) (messageId : ℕ) (epochSeconds : ℕ) : String :=
  toString chatId ++ "_" ++ toString messageId ++ "_" ++ toString epochSeconds

/-- A file name matches the sweep pattern `*{task_id}*` exactly when the
task identifier occurs in it (the glob stars match any run of
characters within the name). -/
def sweepPatternMatch (taskId fileName : String) : Bool :=
  containsSubstr fileName taskId

/-- The download-failure sweep in `process_queue`: every file of the
download directory matching `*{task_id}*` is removed.  Returns the
files that survive the sweep. -/
def sweepSurvivors (taskId : String) (files : List String) : List String :=
  files.filter (fun f => !sweepPatternMatch taskId f)

/-- The output file naming of the fetch, from the yt-dlp option
`outtmpl: DOWNLOAD_DIR/%(title)s [%(id)s].%(ext)s` in downloader.py:
the name is built from the media title and source identifier only. -/
def ytdlpOutputName (title videoId ext : String) : String :=
  title ++ " [" ++ videoId ++ "]." ++ ext

/-! ## queue_processor.py : process_live_stream (segment sweep) -/

/-- One sweep of the live-capture supervisor over a file listing, from
`process_live_stream` in queue_processor.py: each file not in the
uploaded set is uploaded and added to the set.  Returns the final set
and the list of files uploaded by this sweep, in order.  The polling
loop applies it to the listing minus its newest file, the final sweep
to the whole listing. -/
def sweepSegments (uploaded : Finset String) : List String → Finset String × List String
  | [] => (uploaded, [])
  | f :: rest =>
    if f ∈ uploaded then sweepSegments uploaded rest
    else ((sweepSegments (insert f uploaded) rest).1,
      f :: (sweepSegments (insert f uploaded) rest).2)

/-- A sequence of sweeps threading the uploaded set, covering the
polling-loop iterations followed by the final post-exit sweep.  Returns
the final set and the concatenation of all uploads performed. -/
def runSweeps (uploaded : Finset String) : List (List String) → Finset String × List String
  | [] => (uploaded, [])
  | fs :: rest =>
    let r1 := sweepSegments uploaded fs
    let r2 := runSweeps r1.1 rest
    (r2.1, r1.2 ++ r2.2)

/-! ## handlers.py : audio_callback tuple unpacking -/

/-- A Python value as far as the unpacking site needs it: a string or
the `None` object (the thumbnail slot may hold either). -/
inductive PyVal where
  | str (s : String)
  | pyNone
deriving DecidableEq

/-- The tuple returned by the success path of `download_content` in
downloader.py: `return filename, info title, info id, thumb_path`
— four elements. -/
def downloadReturnTuple (filename title videoId : String)
    (thumbPath : Option String) : List PyVal :=
  [PyVal.str filename, PyVal.str title, PyVal.str videoId,
    match thumbPath with
    | some t => PyVal.str t
    | none => PyVal.pyNone]

/-- Python tuple unpacking into three names, as written at the
`file_path, title, video_id = ...` binding in `audio_callback`
(handlers.py): any arity other than three raises a `ValueError`. -/
def unpackThree (vals : List PyVal) : Except String (PyVal × PyVal × PyVal) :=
  match vals with
  | [a, b, c] => Except.ok (a, b, c)
  | _ => Except.error "ValueError: values to unpack mismatch"

/-- Outcome of `audio_callback` in handlers.py: either the audio was
delivered and the success edits performed, or the exception handler ran
and reported a failure. -/
inductive AudioCbOutcome where
  | audioSent
  | failureReported
deriving DecidableEq

/-- The body of `audio_callback` from handlers.py, abstracted over the
outcome of its `download_content` call: a raised download error is
caught by the handler; a successful download is unpacked into three
names before the upload step, and only then can the success path run. -/
def audio_callback (dl : Except String (List PyVal)) : AudioCbOutcome :=
  match dl with
  | Except.error _ => AudioCbOutcome.failureReported
  | Except.ok vals =>
    match unpackThree vals with
    | Except.error _ => AudioCbOutcome.failureReported
    | Except.ok _ => AudioCbOutcome.audioSent

/-- The composition as wired in handlers.py: `audio_callback` invokes
`download_content` (modelled over the same route/oracle abstraction as
in downloader.py, at the four-component success payload) and handles
its outcome. -/
def audioFlow (proxyList : List (Option String))
    (attempt : Option String → AttemptResult (String × String × String × Option String)) :
    AudioCbOutcome :=
  match download_content proxyList attempt with
  | DlResult.ok (f, t, v, th) => audio_callback (Except.ok (downloadReturnTuple f t v th))
  | DlResult.raisedNonGeo msg => audio_callback (Except.error msg)
  | DlResult.geoHint => audio_callback (Except.error "Geo-restricted video. Please configure PROXY or PROXY_LIST in .env")
  | DlResult.singleRouteFailed msg => audio_callback (Except.error msg)
  | DlResult.allProxiesFailed _ msg => audio_callback (Except.error msg)

/-! ## config.py / queue_processor.py : disk quota pre-flight check -/

/-- Embeds `check_disk_space` from config.py: a non-positive quota
always allows; otherwise the projected usage (current usage plus the
estimate converted to GB) is compared strictly against the quota.
Returns the allow flag and the reported remaining headroom. -/
def check_disk_space (maxDiskGb currentUsageGb estimatedSizeMb : ℚ) : Bool × ℚ :=
  if maxDiskGb ≤ 0 then (true, 0)
  else
    let projectedUsage := currentUsageGb + estimatedSizeMb / 1024
    if projectedUsage > maxDiskGb then (false, maxDiskGb - currentUsageGb)
    else (true, maxDiskGb - currentUsageGb)

/-- The pre-flight disk check stage of `process_queue` in
queue_processor.py: `check_disk_space` is consulted only when a quota
is configured and the metadata probe produced a positive size estimate
(`video_info.get` defaults the estimate to 0 on probe timeout or
error); in every other case the job proceeds. -/
def diskCheckAllows (maxDiskGb currentUsageGb estimatedSizeMb : ℚ) : Bool :=
  if 0 < maxDiskGb then
    if 0 < estimatedSizeMb then (check_disk_space maxDiskGb currentUsageGb estimatedSizeMb).1
    else true
  else true

/-! ## Theorems -/

/-- When every per-part ffmpeg invocation succeeds, the part collection
loop of `split_video` keeps every part index. -/
theorem filterMap_parts_all_ok (partOk : ℕ → Bool) (l : List ℕ)
    (h : ∀ i ∈ l, partOk i = true) :
    l.filterMap (fun i => if partOk i then some (SplitPart.part i) else none)
      = l.map SplitPart.part := by
  induction l with
  | nil => rfl
  | cons a t ih =>
    rw [List.filterMap_cons, List.map_cons, h a (List.mem_cons_self a t), if_pos rfl,
      ih (fun i hi => h i (List.mem_cons_of_mem a hi))]

/-- Claim C1 fails on the source: at file size 196 over a ceiling of
100, the source computes `196 / 100 + 1 = 2` parts, while the claimed
formula `floor(196 / (100 * 0.95)) + 1` gives 3; and at size 150 over
ceiling 100 with a one-second duration the source computes segment
length 1/2 where the claimed formula gives 1. -/
theorem split_video_claimed_count_refuted :
    (split_video 196 100 (some ⟨0, 0, 10⟩) (fun _ => true)).length = 2 ∧
    specClaimedNumParts 196 100 = 3 ∧
    ((split_video 196 100 (some ⟨0, 0, 10⟩) (fun _ => true)).length : ℤ)
      ≠ specClaimedNumParts 196 100 ∧
    segmentDuration 150 100 ⟨0, 0, 1⟩
      ≠ (specClaimedSegmentSeconds 150 100 ⟨0, 0, 1⟩ : ℚ) := by
  refine ⟨by decide, by norm_num [specClaimedNumParts], ?_, ?_⟩
  · have h1 : (split_video 196 100 (some ⟨0, 0, 10⟩) (fun _ => true)).length = 2 := by
      decide
    have h2 : specClaimedNumParts 196 100 = 3 := by norm_num [specClaimedNumParts]
    rw [h1, h2]
    decide
  · have h1 : segmentDuration 150 100 ⟨0, 0, 1⟩ = 1 / 2 := by
      norm_num [segmentDuration, totalSeconds, numParts]
    have h2 : specClaimedSegmentSeconds 150 100 ⟨0, 0, 1⟩ = 1 := by
      norm_num [specClaimedSegmentSeconds, totalSeconds, numParts]
    rw [h1, h2]
    norm_num

/-- Claim C1 (amended): for an oversized file whose duration is
determined and whose per-part ffmpeg invocations all succeed, the
splitter produces exactly `fileSize / maxSize + 1` parts (floor
division by the ceiling itself, without the 0.95 factor), and the
computed segment length is the exact division `duration / numParts`,
not clamped to one second — it drops below one second, as at size 150
over ceiling 100 with a one-second duration. -/
theorem split_video_part_count (fileSize maxSize : ℕ) (d : FfprobeDuration)
    (partOk : ℕ → Bool) (hover : maxSize < fileSize) (hok : ∀ i, partOk i = true) :
    (split_video fileSize maxSize (some d) partOk).length = fileSize / maxSize + 1 ∧
    segmentDuration fileSize maxSize d
      = totalSeconds d / ((fileSize / maxSize + 1 : ℕ) : ℚ) ∧
    segmentDuration 150 100 ⟨0, 0, 1⟩ < 1 := by
  refine ⟨?_, rfl, by norm_num [segmentDuration, totalSeconds, numParts]⟩
  have hstep : split_video fileSize maxSize (some d) partOk
      = if ((List.range (numParts fileSize maxSize)).filterMap
            (fun i => if partOk i then some (SplitPart.part i) else none)).isEmpty = true
        then [SplitPart.original]
        else (List.range (numParts fileSize maxSize)).filterMap
            (fun i => if partOk i then some (SplitPart.part i) else none) := by
    unfold split_video
    rw [if_neg (by omega)]
  rw [hstep, filterMap_parts_all_ok partOk _ (fun i _ => hok i)]
  have hne : ((List.range (numParts fileSize maxSize)).map SplitPart.part).isEmpty = false := by
    simp [List.isEmpty_iff, numParts]
  rw [hne]
  simp [numParts]

/-- Witness for the amended claim C1 at size 196, ceiling 100, a
ten-second duration, and all parts succeeding. -/
theorem split_video_part_count_witness :
    (split_video 196 100 (some ⟨0, 0, 10⟩) (fun _ => true)).length = 196 / 100 + 1 ∧
    segmentDuration 196 100 ⟨0, 0, 10⟩
      = totalSeconds ⟨0, 0, 10⟩ / ((196 / 100 + 1 : ℕ) : ℚ) ∧
    segmentDuration 150 100 ⟨0, 0, 1⟩ < 1 :=
  split_video_part_count 196 100 ⟨0, 0, 10⟩ (fun _ => true) (by norm_num) (fun _ => rfl)

/-- Claim C7: for an oversized input, an undetermined duration returns
the original file as the single part, and so does a run in which every
segmenting ffmpeg invocation fails. -/
theorem split_video_degrade_to_original (fileSize maxSize : ℕ) (partOk : ℕ → Bool)
    (hover : maxSize < fileSize) :
    split_video fileSize maxSize none partOk = [SplitPart.original] ∧
    (∀ d : FfprobeDuration, (∀ i, partOk i = false) →
      split_video fileSize maxSize (some d) partOk = [SplitPart.original]) := by
  constructor
  · unfold split_video
    rw [if_neg (by omega)]
  · intro d hfail
    unfold split_video
    rw [if_neg (by omega)]
    simp [hfail]

/-- Witness for claim C7 at size 150 over ceiling 100 with every
segmenting invocation failing. -/
theorem split_video_degrade_to_original_witness :
    split_video 150 100 none (fun _ => false) = [SplitPart.original] ∧
    split_video 150 100 (some ⟨0, 1, 0⟩) (fun _ => false) = [SplitPart.original] := by
  have h := split_video_degrade_to_original 150 100 (fun _ => false) (by norm_num)
  exact ⟨h.1, h.2 ⟨0, 1, 0⟩ (fun _ => rfl)⟩

/-- Unfolding equation of the route loop at an exhausted list. -/
theorem dlGo_nil {α : Type} (attempt : Option String → AttemptResult α)
    (full : List (Option String)) (last : String) :
    dlGo attempt full [] last
      = if full.length = 1 ∧ full.head? = some none then
          if is_geo_restricted_error last = true then DlResult.geoHint
          else DlResult.singleRouteFailed last
        else DlResult.allProxiesFailed full.length last := rfl

/-- Unfolding equation of the route loop at a remaining route. -/
theorem dlGo_cons {α : Type} (attempt : Option String → AttemptResult α)
    (full rest : List (Option String)) (p : Option String) (last : String) :
    dlGo attempt full (p :: rest) last
      = match attempt p with
        | AttemptResult.ok v => DlResult.ok v
        | AttemptResult.err msg =>
          if is_geo_restricted_error msg = true then dlGo attempt full rest msg
          else DlResult.raisedNonGeo msg := rfl

/-- Exhausting any route list of length at least two with only
restriction-classified failures ends in the all-proxies-failed error. -/
theorem dlGo_all_geo {α : Type} (attempt : Option String → AttemptResult α)
    (full : List (Option String)) (hfull : 2 ≤ full.length) :
    ∀ (routes : List (Option String)) (last : String),
      (∀ p ∈ routes, ∃ msg, attempt p = AttemptResult.err msg ∧
        is_geo_restricted_error msg = true) →
      ∃ lastMsg, dlGo attempt full routes last
        = DlResult.allProxiesFailed full.length lastMsg := by
  intro routes
  induction routes with
  | nil =>
    intro last _
    refine ⟨last, ?_⟩
    rw [dlGo_nil, if_neg (by rintro ⟨h1, _⟩; omega)]
  | cons p rest ih =>
    intro last hall
    obtain ⟨msg, hmsg, hgeo⟩ := hall p (List.mem_cons_self p rest)
    obtain ⟨lastMsg, hrec⟩ := ih msg (fun q hq => hall q (List.mem_cons_of_mem p hq))
    refine ⟨lastMsg, ?_⟩
    rw [dlGo_cons, hmsg]
    simp only [hgeo, if_pos]
    exact hrec

/-- Claim C3: the route-failover policy of `download_content` — a
restriction-classified failure advances to the next route; any other
failure is re-raised at once; a restriction failure on the sole
unconfigured route raises the configure-a-proxy hint; a route list of
length at least two exhausted by restriction failures raises the
all-proxies-failed error. -/
theorem download_content_failover :
    (∀ (α : Type) (attempt : Option String → AttemptResult α)
        (full rest : List (Option String)) (p : Option String) (last msg : String),
      attempt p = AttemptResult.err msg → is_geo_restricted_error msg = true →
      dlGo attempt full (p :: rest) last = dlGo attempt full rest msg) ∧
    (∀ (α : Type) (attempt : Option String → AttemptResult α)
        (full rest : List (Option String)) (p : Option String) (last msg : String),
      attempt p = AttemptResult.err msg → is_geo_restricted_error msg = false →
      dlGo attempt full (p :: rest) last = DlResult.raisedNonGeo msg) ∧
    (∀ (α : Type) (attempt : Option String → AttemptResult α) (msg : String),
      attempt none = AttemptResult.err msg → is_geo_restricted_error msg = true →
      download_content [none] attempt = DlResult.geoHint) ∧
    (∀ (α : Type) (attempt : Option String → AttemptResult α)
        (routes : List (Option String)),
      2 ≤ routes.length →
      (∀ p ∈ routes, ∃ msg, attempt p = AttemptResult.err msg ∧
        is_geo_restricted_error msg = true) →
      ∃ lastMsg, download_content routes attempt
        = DlResult.allProxiesFailed routes.length lastMsg) := by
  refine ⟨?_, ?_, ?_, ?_⟩
  · intro α attempt full rest p last msg hmsg hgeo
    rw [dlGo_cons, hmsg]
    simp only [hgeo, if_pos]
  · intro α attempt full rest p last msg hmsg hgeo
    rw [dlGo_cons, hmsg]
    simp only [hgeo]
    rw [if_neg (by simp)]
  · intro α attempt msg hmsg hgeo
    unfold download_content
    rw [dlGo_cons, hmsg]
    simp only [hgeo, if_pos]
    rw [dlGo_nil, if_pos (by simp), if_pos hgeo]
  · intro α attempt routes hlen hall
    exact dlGo_all_geo attempt routes hlen routes "None" hall

/-- Witness for claim C3: a restriction-classified failure on the sole
unconfigured route yields the hint, and a two-route list exhausted by
restriction failures yields the all-proxies-failed error. -/
theorem download_content_failover_witness :
    download_content [none]
      (fun _ => (AttemptResult.err "This video is not available in your country"
        : AttemptResult ℕ)) = DlResult.geoHint ∧
    ∃ lastMsg, download_content [some "socks5h-proxy-a", some "socks5h-proxy-b"]
      (fun _ => (AttemptResult.err "Video unavailable" : AttemptResult ℕ))
      = DlResult.allProxiesFailed 2 lastMsg := by
  constructor
  · exact download_content_failover.2.2.1 ℕ _ _ rfl (by decide)
  · exact download_content_failover.2.2.2 ℕ _ _ (by decide)
      (fun p _ => ⟨"Video unavailable", rfl, by decide⟩)

/-- The retry loop performs at most as many invocations as it has
attempts left. -/
theorem tgRetryAux_attempts_le {α : Type} (f : ℕ → Except TgErr α) :
    ∀ (n a : ℕ), (tgRetryAux f a n).attempts ≤ n := by
  intro n
  induction n with
  | zero => intro a; exact Nat.le_refl 0
  | succ n ih =>
    intro a
    unfold tgRetryAux
    cases hfa : f a with
    | ok v => exact Nat.succ_le_succ (Nat.zero_le n)
    | error e =>
      cases e with
      | retryAfter w => exact Nat.succ_le_succ (ih (a + 1))
      | telegram msg =>
        by_cases hfl : floodTextMatch msg = true
        · simp only [hfl, if_pos]
          exact Nat.succ_le_succ (ih (a + 1))
        · simp only [hfl, if_neg]
          exact Nat.succ_le_succ (Nat.zero_le n)
      | other msg =>
        by_cases hn : n = 0
        · simp only [hn, if_pos]
          exact Nat.le_refl 1
        · simp only [hn, if_neg]
          exact Nat.succ_le_succ (ih (a + 1))

/-- A wrapped call failing with `RetryAfter` at every attempt exhausts
the loop: each attempt sleeps the carried duration and the terminal
max-retries-exceeded error is raised. -/
theorem tgRetryAux_all_retryAfter {α : Type} (f : ℕ → Except TgErr α) (w : ℕ)
    (h : ∀ k, f k = Except.error (TgErr.retryAfter w)) :
    ∀ (n a : ℕ), tgRetryAux f a n
      = ⟨Except.error TgFinal.maxRetriesExceeded, List.replicate n w, n⟩ := by
  intro n
  induction n with
  | zero => intro a; rfl
  | succ n ih =>
    intro a
    unfold tgRetryAux
    rw [h a, ih (a + 1)]
    simp [List.replicate_succ]

/-- A wrapped call failing with a flood-text `TelegramError` at every
attempt exhausts the loop with a five-second sleep per attempt. -/
theorem tgRetryAux_all_flood {α : Type} (f : ℕ → Except TgErr α) (msg : String)
    (hfl : floodTextMatch msg = true)
    (h : ∀ k, f k = Except.error (TgErr.telegram msg)) :
    ∀ (n a : ℕ), tgRetryAux f a n
      = ⟨Except.error TgFinal.maxRetriesExceeded, List.replicate n 5, n⟩ := by
  intro n
  induction n with
  | zero => intro a; rfl
  | succ n ih =>
    intro a
    unfold tgRetryAux
    rw [h a]
    simp only [hfl, if_pos]
    rw [ih (a + 1)]
    simp [List.replicate_succ]

/-- A wrapped call failing with an unclassified exception at every
attempt sleeps two seconds between attempts and re-raises the
underlying exception at the final attempt. -/
theorem tgRetryAux_all_other {α : Type} (f : ℕ → Except TgErr α) (msg : String)
    (h : ∀ k, f k = Except.error (TgErr.other msg)) :
    ∀ (n a : ℕ), tgRetryAux f a (n + 1)
      = ⟨Except.error (TgFinal.raised (TgErr.other msg)), List.replicate n 2, n + 1⟩ := by
  intro n
  induction n with
  | zero =>
    intro a
    unfold tgRetryAux
    rw [h a]
    simp
  | succ n ih =>
    intro a
    unfold tgRetryAux
    rw [h a]
    simp [ih (a + 1), List.replicate_succ]

/-- Claim C5 fails on the source: a call failing with an unclassified
exception on all ten attempts re-raises that exception, not the
max-retries-exceeded error the claim names for every exhaustion. -/
theorem tg_retry_exhaustion_counterexample :
    (tg_retry (fun _ => (Except.error (TgErr.other "Connection reset")
        : Except TgErr ℕ))).result
      = Except.error (TgFinal.raised (TgErr.other "Connection reset")) ∧
    (tg_retry (fun _ => (Except.error (TgErr.other "Connection reset")
        : Except TgErr ℕ))).attempts = 10 ∧
    (tg_retry (fun _ => (Except.error (TgErr.other "Connection reset")
        : Except TgErr ℕ))).result
      ≠ Except.error TgFinal.maxRetriesExceeded := by
  have h := tgRetryAux_all_other
    (fun _ => (Except.error (TgErr.other "Connection reset") : Except TgErr ℕ))
    "Connection reset" (fun _ => rfl) 9 0
  refine ⟨?_, ?_, ?_⟩
  · rw [show tg_retry (fun _ => (Except.error (TgErr.other "Connection reset")
        : Except TgErr ℕ)) = tgRetryAux _ 0 10 from rfl, h]
  · rw [show tg_retry (fun _ => (Except.error (TgErr.other "Connection reset")
        : Except TgErr ℕ)) = tgRetryAux _ 0 10 from rfl, h]
  · rw [show tg_retry (fun _ => (Except.error (TgErr.other "Connection reset")
        : Except TgErr ℕ)) = tgRetryAux _ 0 10 from rfl, h]
    simp

/-- Claim C5 (amended): at most ten attempts are made; a rate-limit
signal carrying a wait duration sleeps that duration before each retry
and exhaustion raises the max-retries-exceeded error; a flood signal
detected by message text sleeps five seconds per retry with the same
exhaustion error; a `TelegramError` without the flood text is re-raised
at once with no backoff; any other exception sleeps two seconds between
attempts, and its exhaustion re-raises the underlying exception rather
than the max-retries-exceeded error; a retry after a single rate-limit
signal succeeds with no error surfaced. -/
theorem tg_retry_policy :
    (∀ (α : Type) (f : ℕ → Except TgErr α), (tg_retry f).attempts ≤ 10) ∧
    (∀ (α : Type) (f : ℕ → Except TgErr α) (w : ℕ),
      (∀ k, f k = Except.error (TgErr.retryAfter w)) →
      tg_retry f = ⟨Except.error TgFinal.maxRetriesExceeded, List.replicate 10 w, 10⟩) ∧
    (∀ (α : Type) (f : ℕ → Except TgErr α) (msg : String),
      floodTextMatch msg = true →
      (∀ k, f k = Except.error (TgErr.telegram msg)) →
      tg_retry f = ⟨Except.error TgFinal.maxRetriesExceeded, List.replicate 10 5, 10⟩) ∧
    (∀ (α : Type) (f : ℕ → Except TgErr α) (msg : String),
      floodTextMatch msg = false →
      f 0 = Except.error (TgErr.telegram msg) →
      tg_retry f = ⟨Except.error (TgFinal.raised (TgErr.telegram msg)), [], 1⟩) ∧
    (∀ (α : Type) (f : ℕ → Except TgErr α) (msg : String),
      (∀ k, f k = Except.error (TgErr.other msg)) →
      tg_retry f = ⟨Except.error (TgFinal.raised (TgErr.other msg)),
        List.replicate 9 2, 10⟩) ∧
    (∀ (α : Type) (f : ℕ → Except TgErr α) (w : ℕ) (v : α),
      f 0 = Except.error (TgErr.retryAfter w) → f 1 = Except.ok v →
      tg_retry f = ⟨Except.ok v, [w], 2⟩) := by
  refine ⟨?_, ?_, ?_, ?_, ?_, ?_⟩
  · intro α f
    exact tgRetryAux_attempts_le f 10 0
  · intro α f w h
    exact tgRetryAux_all_retryAfter f w h 10 0
  · intro α f msg hfl h
    exact tgRetryAux_all_flood f msg hfl h 10 0
  · intro α f msg hfl h
    unfold tg_retry MAX_RETRIES tgRetryAux
    rw [h]
    simp [hfl]
  · intro α f msg h
    exact tgRetryAux_all_other f msg h 9 0
  · intro α f w v h0 h1
    unfold tg_retry MAX_RETRIES tgRetryAux
    rw [h0]
    unfold tgRetryAux
    rw [h1]

/-- Witness for the amended claim C5: a call that always signals a
rate limit with a seven-second wait exhausts the ceiling, and a call
raising an unclassified failure everywhere re-raises it after nine
two-second backoffs. -/
theorem tg_retry_policy_witness :
    tg_retry (fun _ => (Except.error (TgErr.retryAfter 7) : Except TgErr ℕ))
      = ⟨Except.error TgFinal.maxRetriesExceeded, List.replicate 10 7, 10⟩ ∧
    tg_retry (fun _ => (Except.error (TgErr.other "socket timeout") : Except TgErr ℕ))
      = ⟨Except.error (TgFinal.raised (TgErr.other "socket timeout")),
          List.replicate 9 2, 10⟩ :=
  ⟨tg_retry_policy.2.1 ℕ _ 7 (fun _ => rfl),
    tg_retry_policy.2.2.2.2.1 ℕ _ "socket timeout" (fun _ => rfl)⟩

/-- The part-removal fold of the cleanup section only removes files. -/
theorem foldl_erase_subset (filePath : String) (files : List String) :
    ∀ (d : Finset String) (x : String),
      x ∈ files.foldl (fun d f => if f = filePath then d else d.erase f) d → x ∈ d := by
  induction files with
  | nil => intro d x hx; exact hx
  | cons a t ih =>
    intro d x hx
    rw [List.foldl_cons] at hx
    by_cases ha : a = filePath
    · rw [if_pos ha] at hx
      exact ih d x hx
    · rw [if_neg ha] at hx
      exact Finset.mem_of_mem_erase (ih (d.erase a) x hx)

/-- The part-removal fold removes every listed file other than the
original. -/
theorem foldl_erase_not_mem (filePath : String) (files : List String) :
    ∀ (d : Finset String) (x : String), x ∈ files → x ≠ filePath →
      x ∉ files.foldl (fun d f => if f = filePath then d else d.erase f) d := by
  induction files with
  | nil => intro d x hx; exact absurd hx (List.not_mem_nil x)
  | cons a t ih =>
    intro d x hx hne hmem
    rw [List.foldl_cons] at hmem
    rcases List.mem_cons.mp hx with rfl | hxt
    · rw [if_neg hne] at hmem
      exact absurd (foldl_erase_subset filePath t (d.erase x) x hmem)
        (Finset.not_mem_erase x d)
    · by_cases ha : a = filePath
      · rw [if_pos ha] at hmem
        exact ih d x hxt hne hmem
      · rw [if_neg ha] at hmem
        exact ih (d.erase a) x hxt hne hmem

/-- The cleanup section removes the original file, the thumbnail and
every part. -/
theorem videoCleanup_removes (filePath : String) (thumbPath : Option String)
    (files : List String) (disk : Finset String) :
    filePath ∉ videoCleanup filePath thumbPath files disk ∧
    (∀ t, thumbPath = some t → t ∉ videoCleanup filePath thumbPath files disk) ∧
    (∀ f ∈ files, f ∉ videoCleanup filePath thumbPath files disk) := by
  unfold videoCleanup
  set d1 := (match thumbPath with
    | some t => disk.erase t
    | none => disk) with hd1
  refine ⟨?_, ?_, ?_⟩
  · intro hmem
    exact absurd (foldl_erase_subset filePath files (d1.erase filePath) filePath hmem)
      (Finset.not_mem_erase filePath d1)
  · intro t ht hmem
    have h1 : t ∈ d1.erase filePath :=
      foldl_erase_subset filePath files (d1.erase filePath) t hmem
    have h2 : t ∈ d1 := Finset.mem_of_mem_erase h1
    rw [hd1, ht] at h2
    exact absurd h2 (Finset.not_mem_erase t disk)
  · intro f hf hmem
    by_cases hfe : f = filePath
    · subst hfe
      exact absurd (foldl_erase_subset f files (d1.erase f) f hmem)
        (Finset.not_mem_erase f d1)
    · exact foldl_erase_not_mem filePath files (d1.erase filePath) f hf hfe hmem

/-- With the standard endpoint the per-part upload loop never touches
the disk. -/
theorem uploadPartsLoop_nonlocal_disk (thumbPath : Option String)
    (uploadOk reportOk : ℕ → Bool) :
    ∀ (files : List String) (i : ℕ) (disk : Finset String),
      (uploadPartsLoop false thumbPath uploadOk reportOk i files disk).1 = disk := by
  intro files
  induction files with
  | nil => intro i disk; rfl
  | cons a t ih =>
    intro i disk
    unfold uploadPartsLoop
    by_cases hu : uploadOk i = true
    · simp only [hu, if_pos]
      exact ih (i + 1) disk
    · simp only [hu]
      by_cases hr : reportOk i = true
      · simp only [hr]
        simpa using ih (i + 1) disk
      · simp only [hr]
        simp

/-- Unfolding equation of the video branch when `split_video` returned
a file list. -/
theorem handleUploadVideoBranch_some (filePath : String) (thumbPath : Option String)
    (isLocal : Bool) (files : List String) (uploadOk reportOk : ℕ → Bool)
    (disk : Finset String) :
    handleUploadVideoBranch filePath thumbPath isLocal (some files) uploadOk reportOk disk
      = if (uploadPartsLoop isLocal thumbPath uploadOk reportOk 0 files disk).2 = true
        then ⟨(uploadPartsLoop isLocal thumbPath uploadOk reportOk 0 files disk).1, true⟩
        else ⟨videoCleanup filePath thumbPath files
          (uploadPartsLoop isLocal thumbPath uploadOk reportOk 0 files disk).1, false⟩ := rfl

/-- Claim C2 fails on the source: with one oversized part whose
transfer fails and whose failure-report send also fails, the exception
escapes the upload step, the cleanup section is skipped, and the
original file is still on disk when `handle_upload` returns. -/
theorem handle_upload_cleanup_counterexample :
    handleUploadVideoBranch "video.mp4" none false (some ["video.mp4"])
        (fun _ => false) (fun _ => false) {"video.mp4"}
      = ⟨{"video.mp4"}, true⟩ ∧
    "video.mp4" ∈ (handleUploadVideoBranch "video.mp4" none false (some ["video.mp4"])
        (fun _ => false) (fun _ => false) {"video.mp4"}).disk := by
  constructor
  · rfl
  · rw [show (handleUploadVideoBranch "video.mp4" none false (some ["video.mp4"])
        (fun _ => false) (fun _ => false) {"video.mp4"}).disk
      = {"video.mp4"} from rfl]
    exact Finset.mem_singleton.mpr rfl

/-- Claim C2 (amended): cleanup is conditional on the exit path.  In
the video branch, when no exception escapes the upload step, the
original file, every split part, and any thumbnail are removed; when
the `split_video` call raises, or a part transfer and its own failure
report both fail, the escape skips cleanup and (on the standard
endpoint) the disk is unchanged.  In the audio branch a successful
upload removes only the original file directly — on the standard
endpoint the thumbnail survives even on success, the streaming uploader
of the local endpoint being the only remover of it — and a raised
upload error leaves the disk unchanged. -/
theorem handle_upload_cleanup (filePath : String) (thumbPath : Option String)
    (files : List String) (uploadOk reportOk : ℕ → Bool) (disk : Finset String) :
    (∀ isLocal : Bool,
      (handleUploadVideoBranch filePath thumbPath isLocal (some files)
          uploadOk reportOk disk).escaped = false →
      filePath ∉ (handleUploadVideoBranch filePath thumbPath isLocal (some files)
          uploadOk reportOk disk).disk ∧
      (∀ f ∈ files, f ∉ (handleUploadVideoBranch filePath thumbPath isLocal (some files)
          uploadOk reportOk disk).disk) ∧
      (∀ t, thumbPath = some t →
        t ∉ (handleUploadVideoBranch filePath thumbPath isLocal (some files)
          uploadOk reportOk disk).disk)) ∧
    (∀ isLocal : Bool, handleUploadVideoBranch filePath thumbPath isLocal none
        uploadOk reportOk disk = ⟨disk, true⟩) ∧
    ((handleUploadVideoBranch filePath thumbPath false (some files)
        uploadOk reportOk disk).escaped = true →
      (handleUploadVideoBranch filePath thumbPath false (some files)
        uploadOk reportOk disk).disk = disk) ∧
    (handleUploadAudioBranch filePath thumbPath false true disk
      = ⟨disk.erase filePath, false⟩) ∧
    (∀ t, thumbPath = some t → t ≠ filePath → t ∈ disk →
      t ∈ (handleUploadAudioBranch filePath thumbPath false true disk).disk) ∧
    (∀ t, handleUploadAudioBranch filePath (some t) true true disk
      = ⟨(disk.erase t).erase filePath, false⟩) ∧
    (∀ isLocal : Bool, handleUploadAudioBranch filePath thumbPath isLocal false disk
      = ⟨disk, true⟩) := by
  refine ⟨?_, ?_, ?_, ?_, ?_, ?_, ?_⟩
  · intro isLocal hesc
    rw [handleUploadVideoBranch_some] at hesc ⊢
    by_cases hloop : (uploadPartsLoop isLocal thumbPath uploadOk reportOk 0 files disk).2 = true
    · rw [if_pos hloop] at hesc
      exact absurd hesc (by simp)
    · rw [if_neg hloop] at hesc ⊢
      have h := videoCleanup_removes filePath thumbPath files
        (uploadPartsLoop isLocal thumbPath uploadOk reportOk 0 files disk).1
      exact ⟨h.1, h.2.2, h.2.1⟩
  · intro isLocal
    rfl
  · intro hesc
    rw [handleUploadVideoBranch_some] at hesc ⊢
    by_cases hloop : (uploadPartsLoop false thumbPath uploadOk reportOk 0 files disk).2 = true
    · rw [if_pos hloop] at hesc ⊢
      exact uploadPartsLoop_nonlocal_disk thumbPath uploadOk reportOk files 0 disk
    · rw [if_neg hloop] at hesc
      exact absurd hesc (by simp)
  · rfl
  · intro t ht hne hmem
    unfold handleUploadAudioBranch
    simp only
    exact Finset.mem_erase.mpr ⟨hne, hmem⟩
  · intro t
    rfl
  · intro isLocal
    cases isLocal
    · rfl
    · unfold handleUploadAudioBranch streamingUploadDisk
      simp

/-- Witness for the amended claim C2: a one-part job whose transfer
succeeds has its original file, part file and thumbnail removed, and a
failed audio upload leaves the disk unchanged. -/
theorem handle_upload_cleanup_witness :
    ("video.mp4" ∉ (handleUploadVideoBranch "video.mp4" (some "thumb.jpg") false
        (some ["video_part1.mp4"]) (fun _ => true) (fun _ => true)
        {"video.mp4", "video_part1.mp4", "thumb.jpg"}).disk) ∧
    handleUploadAudioBranch "audio.m4a" (some "thumb.jpg") false false
        {"audio.m4a", "thumb.jpg"}
      = ⟨{"audio.m4a", "thumb.jpg"}, true⟩ := by
  have h := handle_upload_cleanup "video.mp4" (some "thumb.jpg") ["video_part1.mp4"]
    (fun _ => true) (fun _ => true) {"video.mp4", "video_part1.mp4", "thumb.jpg"}
  refine ⟨(h.1 false (by rfl)).1, ?_⟩
  have h2 := handle_upload_cleanup "audio.m4a" (some "thumb.jpg") []
    (fun _ => true) (fun _ => true) {"audio.m4a", "thumb.jpg"}
  exact h2.2.2.2.2.2.2 false

/-- Claim C6 fails on the source: the text comparison reads the
creation-time text of the held message object, which the source never
reassigns after `edit_text`.  In the reachable state below — status
message created with the text `starting`, then successfully edited to
`downloading` — a non-forced report of `downloading` outside the
window equals the currently displayed text and is nonetheless sent as
another outbound edit, where the claim requires suppression. -/
theorem status_reporter_displayed_text_counterexample :
    update_status_msg ⟨none, none, 0⟩ "starting" true 50 true
      = (⟨some "starting", some "starting", 50⟩, true) ∧
    update_status_msg ⟨some "starting", some "starting", 50⟩ "downloading" true 100 true
      = (⟨some "starting", some "downloading", 100⟩, true) ∧
    (⟨some "starting", some "downloading", (100 : ℚ)⟩ : StatusState).displayedText
      = some "downloading" ∧
    (update_status_msg ⟨some "starting", some "downloading", 100⟩
      "downloading" false 130 true).2 = true := by
  refine ⟨?_, ?_, rfl, ?_⟩
  · unfold update_status_msg
    rw [if_neg (by simp)]
    rfl
  · unfold update_status_msg
    rw [if_neg (by simp)]
    simp
  · unfold update_status_msg
    rw [if_neg (by norm_num)]
    simp

/-- Claim C6 (amended): the progress reporter suppresses a report when
force is false and fewer than twenty seconds have elapsed since the
last actual send, and suppresses a report whose text equals the
creation-time text of the held status message object (not the
currently displayed text) regardless of force; two identical reports
with force false inside the window still produce exactly one outbound
send — the second call changes nothing and emits nothing. -/
theorem status_reporter_suppression :
    (∀ (st : StatusState) (text : String) (now : ℚ) (ok : Bool),
      now - st.lastEditTime < 20 →
      update_status_msg st text false now ok = (st, false)) ∧
    (∀ (st : StatusState) (text : String) (force : Bool) (now : ℚ) (ok : Bool),
      st.statusMsg = some text →
      update_status_msg st text force now ok = (st, false)) ∧
    (∀ (st : StatusState) (text : String) (t1 t2 : ℚ) (ok1 ok2 : Bool),
      (update_status_msg st text false t1 ok1).2 = true →
      t2 - t1 < 20 →
      update_status_msg (update_status_msg st text false t1 ok1).1 text false t2 ok2
        = ((update_status_msg st text false t1 ok1).1, false)) := by
  have hsupp : ∀ (st : StatusState) (text : String) (now : ℚ) (ok : Bool),
      now - st.lastEditTime < 20 →
      update_status_msg st text false now ok = (st, false) := by
    intro st text now ok h
    unfold update_status_msg
    rw [if_pos ⟨rfl, h⟩]
  have htext : ∀ (st : StatusState) (text : String) (force : Bool) (now : ℚ) (ok : Bool),
      st.statusMsg = some text →
      update_status_msg st text force now ok = (st, false) := by
    intro st text force now ok h
    unfold update_status_msg
    by_cases hwin : force = false ∧ now - st.lastEditTime < 20
    · rw [if_pos hwin]
    · rw [if_neg hwin, h]
      simp
  refine ⟨hsupp, htext, ?_⟩
  intro st text t1 t2 ok1 ok2 hsent hwin
  have htime : (update_status_msg st text false t1 ok1).1.lastEditTime = t1 := by
    obtain ⟨msgOpt, dispOpt, lastT⟩ := st
    unfold update_status_msg at hsent ⊢
    by_cases hw : (false = false ∧
        t1 - (StatusState.mk msgOpt dispOpt lastT).lastEditTime < 20)
    · rw [if_pos hw] at hsent
      exact absurd hsent (by simp)
    · rw [if_neg hw] at hsent ⊢
      cases msgOpt with
      | none =>
        cases ok1
        · exact absurd hsent (by simp)
        · rfl
      | some createdText =>
        cases ok1 with
        | false =>
          by_cases hne : createdText ≠ text
          · exact absurd hsent (by simp [hne])
          · exact absurd hsent (by simp [hne])
        | true =>
          by_cases hne : createdText ≠ text
          · simp [hne]
          · exact absurd hsent (by simp [hne])
  exact hsupp (update_status_msg st text false t1 ok1).1 text t2 ok2
    (by rw [htime]; exact hwin)

/-- Witness for the amended claim C6: a second identical report eleven
seconds after a send changes nothing, and a report matching the
creation-time text is suppressed even when forced. -/
theorem status_reporter_suppression_witness :
    update_status_msg ⟨some "downloading", some "downloading", (100 : ℚ)⟩
        "downloading" false 111 true
      = (⟨some "downloading", some "downloading", (100 : ℚ)⟩, false) ∧
    update_status_msg ⟨some "downloading", some "downloading", (100 : ℚ)⟩
        "downloading" true 111 true
      = (⟨some "downloading", some "downloading", (100 : ℚ)⟩, false) :=
  ⟨status_reporter_suppression.2.1 ⟨some "downloading", some "downloading", (100 : ℚ)⟩
      "downloading" false 111 true rfl,
    status_reporter_suppression.2.1 ⟨some "downloading", some "downloading", (100 : ℚ)⟩
      "downloading" true 111 true rfl⟩

/-- One sweep of the live supervisor never emits a file already in the
uploaded set, emits no duplicates, and its final set is the initial set
extended by exactly the emitted files. -/
theorem sweepSegments_spec (files : List String) :
    ∀ (u : Finset String),
      (sweepSegments u files).2.Nodup ∧
      (∀ f ∈ (sweepSegments u files).2, f ∉ u) ∧
      (∀ f, f ∈ (sweepSegments u files).1 ↔ f ∈ u ∨ f ∈ (sweepSegments u files).2) := by
  induction files with
  | nil =>
    intro u
    exact ⟨List.nodup_nil, fun f hf => absurd hf (List.not_mem_nil f),
      fun f => by simp [sweepSegments]⟩
  | cons a t ih =>
    intro u
    unfold sweepSegments
    by_cases ha : a ∈ u
    · rw [if_pos ha]
      exact ih u
    · rw [if_neg ha]
      obtain ⟨hnodup, hnotin, hmem⟩ := ih (insert a u)
      refine ⟨?_, ?_, ?_⟩
      · exact List.nodup_cons.mpr
          ⟨fun hcon => hnotin a hcon (Finset.mem_insert_self a u), hnodup⟩
      · intro f hf
        rcases List.mem_cons.mp hf with rfl | hft
        · simpa using ha
        · intro hfu
          exact hnotin f hft (Finset.mem_insert_of_mem hfu)
      · intro f
        show f ∈ (sweepSegments (insert a u) t).1 ↔
          f ∈ u ∨ f ∈ a :: (sweepSegments (insert a u) t).2
        rw [hmem f]
        constructor
        · rintro (hf | hf)
          · rcases Finset.mem_insert.mp hf with rfl | hf
            · exact Or.inr (List.mem_cons_self f (sweepSegments (insert f u) t).2)
            · exact Or.inl hf
          · exact Or.inr (List.mem_cons_of_mem a hf)
        · rintro (hf | hf)
          · exact Or.inl (Finset.mem_insert_of_mem hf)
          · rcases List.mem_cons.mp hf with rfl | hf
            · exact Or.inl (Finset.mem_insert_self f u)
            · exact Or.inr hf

/-- Every file of the swept listing is in the uploaded set once the
sweep finishes. -/
theorem sweepSegments_mem_result (files : List String) :
    ∀ (u : Finset String) (f : String), f ∈ files → f ∈ (sweepSegments u files).1 := by
  induction files with
  | nil => intro u f hf; exact absurd hf (List.not_mem_nil f)
  | cons a t ih =>
    intro u f hf
    unfold sweepSegments
    by_cases ha : a ∈ u
    · rw [if_pos ha]
      rcases List.mem_cons.mp hf with rfl | hft
      · exact ((sweepSegments_spec t u).2.2 f).mpr (Or.inl ha)
      · exact ih u f hft
    · rw [if_neg ha]
      rcases List.mem_cons.mp hf with rfl | hft
      · exact ((sweepSegments_spec t (insert f u)).2.2 f).mpr
          (Or.inl (Finset.mem_insert_self f u))
      · exact ih (insert a u) f hft

/-- A sweep over a listing whose every file is already uploaded does
nothing. -/
theorem sweepSegments_all_mem (files : List String) :
    ∀ (u : Finset String), (∀ f ∈ files, f ∈ u) → sweepSegments u files = (u, []) := by
  induction files with
  | nil => intro u _; rfl
  | cons a t ih =>
    intro u hall
    unfold sweepSegments
    rw [if_pos (hall a (List.mem_cons_self a t))]
    exact ih u (fun f hf => hall f (List.mem_cons_of_mem a hf))

/-- Across a sequence of sweeps the emitted uploads are duplicate-free
and disjoint from the initial uploaded set, and the set only grows. -/
theorem runSweeps_spec (listings : List (List String)) :
    ∀ (u : Finset String),
      (runSweeps u listings).2.Nodup ∧
      (∀ f ∈ (runSweeps u listings).2, f ∉ u) ∧
      u ⊆ (runSweeps u listings).1 := by
  induction listings with
  | nil =>
    intro u
    exact ⟨List.nodup_nil, fun f hf => absurd hf (List.not_mem_nil f),
      Finset.Subset.refl u⟩
  | cons fs rest ih =>
    intro u
    obtain ⟨h1nodup, h1notin, h1iff⟩ := sweepSegments_spec fs u
    obtain ⟨h2nodup, h2notin, h2sub⟩ := ih (sweepSegments u fs).1
    unfold runSweeps
    refine ⟨?_, ?_, ?_⟩
    · rw [List.nodup_append]
      refine ⟨h1nodup, h2nodup, ?_⟩
      intro f hf1 hf2
      exact h2notin f hf2 ((h1iff f).mpr (Or.inr hf1))
    · intro f hf hfu
      rcases List.mem_append.mp hf with hf1 | hf2
      · exact h1notin f hf1 hfu
      · exact h2notin f hf2 ((h1iff f).mpr (Or.inl hfu))
    · exact fun x hx => h2sub ((h1iff x).mpr (Or.inl hx))

/-- Claim C8: the live-capture sweep never uploads a file already in
the uploaded set; re-running it on an unchanged listing uploads nothing
further; and across any sequence of sweeps — the polling iterations and
the final post-exit sweep — the uploads are pairwise distinct and
disjoint from the starting set, so each segment is uploaded at most
once. -/
theorem live_segment_at_most_once :
    (∀ (uploaded : Finset String) (files : List String) (f : String),
      f ∈ uploaded → f ∉ (sweepSegments uploaded files).2) ∧
    (∀ (uploaded : Finset String) (files : List String),
      sweepSegments (sweepSegments uploaded files).1 files
        = ((sweepSegments uploaded files).1, [])) ∧
    (∀ (uploaded : Finset String) (listings : List (List String)),
      (runSweeps uploaded listings).2.Nodup ∧
      ∀ f ∈ (runSweeps uploaded listings).2, f ∉ uploaded) := by
  refine ⟨?_, ?_, ?_⟩
  · intro u files f hfu hf
    exact (sweepSegments_spec files u).2.1 f hf hfu
  · intro u files
    apply sweepSegments_all_mem
    intro f hf
    exact sweepSegments_mem_result files u f hf
  · intro u listings
    exact ⟨(runSweeps_spec listings u).1, (runSweeps_spec listings u).2.1⟩

/-- Witness for claim C8: with the first segment already uploaded, a
sweep over the unchanged two-segment listing does not emit it again,
and a second identical sweep emits nothing at all. -/
theorem live_segment_at_most_once_witness :
    "live_1_000.mp4" ∉
      (sweepSegments {"live_1_000.mp4"} ["live_1_000.mp4", "live_1_001.mp4"]).2 ∧
    sweepSegments
        (sweepSegments {"live_1_000.mp4"} ["live_1_000.mp4", "live_1_001.mp4"]).1
        ["live_1_000.mp4", "live_1_001.mp4"]
      = ((sweepSegments {"live_1_000.mp4"} ["live_1_000.mp4", "live_1_001.mp4"]).1, []) :=
  ⟨live_segment_at_most_once.1 {"live_1_000.mp4"} ["live_1_000.mp4", "live_1_001.mp4"]
      "live_1_000.mp4" (Finset.mem_singleton.mpr rfl),
    live_segment_at_most_once.2.1 {"live_1_000.mp4"} ["live_1_000.mp4", "live_1_001.mp4"]⟩

/-- Claim C9: the success payload of `download_content` has four
components while the binding in `audio_callback` unpacks three names,
so every successful download raises a `ValueError` inside the handler
and the failure branch runs; the handler therefore never reaches its
success path for any download outcome. -/
theorem audio_callback_never_succeeds :
    (∀ (filename title videoId : String) (thumbPath : Option String),
      audio_callback (Except.ok (downloadReturnTuple filename title videoId thumbPath))
        = AudioCbOutcome.failureReported) ∧
    (∀ (e : String), audio_callback (Except.error e) = AudioCbOutcome.failureReported) ∧
    (∀ (proxyList : List (Option String))
        (attempt : Option String →
          AttemptResult (String × String × String × Option String)),
      audioFlow proxyList attempt = AudioCbOutcome.failureReported) := by
  have hok : ∀ (filename title videoId : String) (thumbPath : Option String),
      audio_callback (Except.ok (downloadReturnTuple filename title videoId thumbPath))
        = AudioCbOutcome.failureReported := by
    intro filename title videoId thumbPath
    cases thumbPath <;> rfl
  refine ⟨hok, fun e => rfl, ?_⟩
  intro proxyList attempt
  unfold audioFlow
  cases hdl : download_content proxyList attempt with
  | ok v =>
    obtain ⟨f, t, vid, th⟩ := v
    exact hok f t vid th
  | raisedNonGeo msg => rfl
  | geoHint => rfl
  | singleRouteFailed msg => rfl
  | allProxiesFailed n msg => rfl

/-- Claim C10: the pre-flight disk check is skipped whenever the probe
yields no size estimate, letting any job through regardless of quota
and current usage, and a job whose projected usage exactly equals the
quota passes because the comparison is strict. -/
theorem disk_check_skip_and_boundary :
    (∀ maxDiskGb currentUsageGb : ℚ, diskCheckAllows maxDiskGb currentUsageGb 0 = true) ∧
    (∀ maxDiskGb currentUsageGb estimatedSizeMb : ℚ,
      0 < maxDiskGb → 0 < estimatedSizeMb →
      currentUsageGb + estimatedSizeMb / 1024 = maxDiskGb →
      (check_disk_space maxDiskGb currentUsageGb estimatedSizeMb).1 = true ∧
      diskCheckAllows maxDiskGb currentUsageGb estimatedSizeMb = true) := by
  constructor
  · intro maxDiskGb currentUsageGb
    unfold diskCheckAllows
    by_cases h : (0 : ℚ) < maxDiskGb
    · rw [if_pos h, if_neg (by norm_num)]
    · rw [if_neg h]
  · intro maxDiskGb currentUsageGb estimatedSizeMb hq he heq
    have hchk : (check_disk_space maxDiskGb currentUsageGb estimatedSizeMb).1 = true := by
      unfold check_disk_space
      rw [if_neg (by linarith)]
      rw [if_neg (by rw [heq]; exact lt_irrefl maxDiskGb)]
    refine ⟨hchk, ?_⟩
    unfold diskCheckAllows
    rw [if_pos hq, if_pos he]
    exact hchk

/-- Witness for claim C10: with a one-gigabyte quota, a job with no
size estimate passes even at full usage, and a projected usage exactly
at the quota passes the strict comparison. -/
theorem disk_check_skip_and_boundary_witness :
    diskCheckAllows 1 5 0 = true ∧
    (check_disk_space 1 (1 / 2) 512).1 = true ∧
    diskCheckAllows 1 (1 / 2) 512 = true :=
  ⟨disk_check_skip_and_boundary.1 1 5,
    (disk_check_skip_and_boundary.2 1 (1 / 2) 512 (by norm_num) (by norm_num)
      (by norm_num)).1,
    (disk_check_skip_and_boundary.2 1 (1 / 2) 512 (by norm_num) (by norm_num)
      (by norm_num)).2⟩

/-- Claim C4 against the source: the failure sweep removes the files of
the download directory matching `*{task_id}*`, but the fetch names its
output from the media title and source identifier, which do not contain
the task identifier — so at this failing input the partial file of the
fetch survives the sweep untouched. -/
theorem partial_sweep_misses_fetch_output :
    sweepPatternMatch (taskIdFormat 123 45 1700000000)
      (ytdlpOutputName "MyVideo" "abc123" "mp4") = false ∧
    sweepSurvivors (taskIdFormat 123 45 1700000000)
        [ytdlpOutputName "MyVideo" "abc123" "mp4"]
      = [ytdlpOutputName "MyVideo" "abc123" "mp4"] ∧
    sweepSurvivors "123_45_1700000000" ["live_123_45_1700000000_000.mp4"] = [] := by
  refine ⟨by decide, by decide, by decide⟩

end YTDL
